import Mathlib

/-!
# Verification of the rusty_v8_helper value codec and object wrapper

A shallow embedding of the repository's two core components:

* the value codec (`src/ffi_map.rs`, trait `FFICompat`): bidirectional
  conversion between native Rust values and V8 engine values, and
* the native object wrapper (`src/object_wrap.rs`, `ObjectWrap<T>`):
  binding a reference-counted Rust payload to a V8 object through two
  internal slots, with weak-callback based reclamation,

together with the return-value postlude generated by the call adapter
(`rusty_v8_helper_derive/src/lib.rs`, `impl_v8_ffi`).

Engine values are modelled by the inductive `JSValue`; the exact value of a
finite V8 double is modelled as a rational number, and the two directions of
Rust's numeric casts (`int as f64`, `f64 as int`) are modelled exactly:
`int as f64` rounds to the nearest IEEE-754 binary64 value (ties to even)
and `f64 as int` truncates toward zero, saturating at the target type's
bounds.  Fallible conversions are `Except` values whose error strings are
the messages of the source.
-/

/-- An engine (V8) value, as observed through the `rusty_v8` downcasts used
by `ffi_map.rs`.  A finite Number is carried as the exact rational it
denotes; an Object is an opaque reference into the engine heap (`V8Heap`
below).  NaN and the infinities are outside the model. -/
inductive JSValue where
  | vundefined
  | vnull
  | vbool (b : Bool)
  | vnum (q : Rat)
  | vstr (s : String)
  | varr (elems : List JSValue)
  | vobj (oid : Nat)

/-! ## Exact model of Rust's numeric casts

`i64::from_value` in `ffi_map.rs` is `f64::from_value(..).map(|x| x as i64)`
and `to_value` is `(self as f64).to_value(..)` (same for `u64`, `i32`,
`u32`).  The casts are std-Rust behaviour, not repository code: `as f64`
rounds to nearest (ties to even) and `as iN`/`as uN` truncates toward zero
and saturates at the bounds of the target type. -/

/-- Number of binary digits of `n` (0 for 0), by fuelled structural
recursion so that the kernel can evaluate it. 128 units of fuel cover every
integer magnitude reachable from 64-bit inputs. -/
def bitLenAux : Nat → Nat → Nat
  | 0, _ => 0
  | fuel + 1, n => if n = 0 then 0 else bitLenAux fuel (n / 2) + 1

def bitLen (n : Nat) : Nat := bitLenAux 128 n

/-- Rust's `x as f64` on an integer `x`: the exact value of the nearest
IEEE-754 binary64 (53-bit significand, round to nearest, ties to even).
Integers of magnitude at most `2 ^ 53` are exact; larger ones are rounded
to a multiple of `2 ^ (bits - 53)`. -/
def round53 (n : Int) : Int :=
  let a := n.natAbs
  if a ≤ 2 ^ 53 then n
  else
    let k := bitLen a - 53
    let q := a / 2 ^ k
    let r := a % 2 ^ k
    let half := 2 ^ (k - 1)
    let q2 := if half < r then q + 1
      else if r < half then q
      else if q % 2 = 0 then q else q + 1
    if n < 0 then -((q2 * 2 ^ k : Nat) : Int) else ((q2 * 2 ^ k : Nat) : Int)

/-- Truncation of a rational toward zero (the integral part of a double). -/
def ratTrunc (q : Rat) : Int := q.num.tdiv (q.den : Int)

/-- Rust's `x as f64` for `x : i64` (exact value of the resulting double). -/
def i64_as_f64 (x : Int) : Rat := (round53 x : Rat)

/-- Rust's `x as f64` for `x : u64`. -/
def u64_as_f64 (x : Nat) : Rat := (round53 (x : Int) : Rat)

/-- Rust's `x as f64` for `x : i32`. -/
def i32_as_f64 (x : Int) : Rat := (round53 x : Rat)

/-- Rust's `x as f64` for `x : u32`. -/
def u32_as_f64 (x : Nat) : Rat := (round53 (x : Int) : Rat)

/-- Rust's `q as i64` on a finite double: truncate toward zero, saturating
at the bounds of `i64`. -/
def f64_as_i64 (q : Rat) : Int := max (-(2 ^ 63)) (min (2 ^ 63 - 1) (ratTrunc q))

/-- Rust's `q as u64` on a finite double. -/
def f64_as_u64 (q : Rat) : Nat := (max 0 (min (2 ^ 64 - 1) (ratTrunc q))).toNat

/-- Rust's `q as i32` on a finite double. -/
def f64_as_i32 (q : Rat) : Int := max (-(2 ^ 31)) (min (2 ^ 31 - 1) (ratTrunc q))

/-- Rust's `q as u32` on a finite double. -/
def f64_as_u32 (q : Rat) : Nat := (max 0 (min (2 ^ 32 - 1) (ratTrunc q))).toNat

/-! ## The primitive codecs of `ffi_map.rs` -/

/-- `impl FFICompat for String`: `from_value` downcasts to `v8::String`
(`to_rust_string_lossy` is the identity here, strings being Unicode on both
sides of the model) and errors on every other kind of value. -/
def StringFFI.from_value (v : JSValue) : Except String String :=
  match v with
  | .vstr s => .ok s
  | _ => .error "invalid type for argument in ffi call, expected string"

/-- `impl FFICompat for String`: `to_value` is `make_str` and always
succeeds. -/
def StringFFI.to_value (s : String) : Except String JSValue :=
  .ok (.vstr s)

/-- `impl FFICompat for f64`: `from_value` downcasts to `v8::Number` and
takes its `number_value`; anything else is an error. -/
def F64FFI.from_value (v : JSValue) : Except String Rat :=
  match v with
  | .vnum q => .ok q
  | _ => .error "invalid type for argument in ffi call, expected f64"

/-- `impl FFICompat for f64`: `to_value` is `make_num` and always
succeeds. -/
def F64FFI.to_value (x : Rat) : Except String JSValue :=
  .ok (.vnum x)

/-- `impl FFICompat for bool`: `from_value` downcasts to `v8::Boolean` and
reads `is_true`; anything else is an error. -/
def BoolFFI.from_value (v : JSValue) : Except String Bool :=
  match v with
  | .vbool b => .ok b
  | _ => .error "invalid type for argument in ffi call, expected boolean"

/-- `impl FFICompat for bool`: `to_value` is `make_bool`. -/
def BoolFFI.to_value (b : Bool) : Except String JSValue :=
  .ok (.vbool b)

/-- `impl FFICompat for i64`: `f64::from_value(value, scope, context).map(|x| x as i64)`. -/
def I64FFI.from_value (v : JSValue) : Except String Int :=
  (F64FFI.from_value v).map f64_as_i64

/-- `impl FFICompat for i64`: `(self as f64).to_value(scope, context)`. -/
def I64FFI.to_value (x : Int) : Except String JSValue :=
  F64FFI.to_value (i64_as_f64 x)

/-- `impl FFICompat for u64`: `from_value` through the `f64` codec. -/
def U64FFI.from_value (v : JSValue) : Except String Nat :=
  (F64FFI.from_value v).map f64_as_u64

/-- `impl FFICompat for u64`: `(self as f64).to_value(scope, context)`. -/
def U64FFI.to_value (x : Nat) : Except String JSValue :=
  F64FFI.to_value (u64_as_f64 x)

/-- `impl FFICompat for i32`: `from_value` through the `f64` codec. -/
def I32FFI.from_value (v : JSValue) : Except String Int :=
  (F64FFI.from_value v).map f64_as_i32

/-- `impl FFICompat for i32`: `(self as f64).to_value(scope, context)`. -/
def I32FFI.to_value (x : Int) : Except String JSValue :=
  F64FFI.to_value (i32_as_f64 x)

/-- `impl FFICompat for u32`: `from_value` through the `f64` codec. -/
def U32FFI.from_value (v : JSValue) : Except String Nat :=
  (F64FFI.from_value v).map f64_as_u32

/-- `impl FFICompat for u32`: `(self as f64).to_value(scope, context)`. -/
def U32FFI.to_value (x : Nat) : Except String JSValue :=
  F64FFI.to_value (u32_as_f64 x)

/-! ## The composite codecs of `ffi_map.rs`

The generic impls (`Option<T>`, `Result<T, E>`, `Vec<T>`, tuples) are
parametrised here by the inner type's conversion functions, and — where the
source applies `format!("{:?}", e)` — by a function rendering the inner
error type's `Debug` text. -/

/-- `impl FFICompat for Option<T>`: `Ok(T::from_value(value, scope, context).ok())`. -/
def OptionFFI.from_value {α ε : Type} (inner : JSValue → Except ε α)
    (v : JSValue) : Except ε (Option α) :=
  .ok (inner v).toOption

/-- `impl FFICompat for Option<T>`:
`self.map(|x| x.to_value(..).ok()).flatten().unwrap_or_else(|| v8::null(..))`. -/
def OptionFFI.to_value {α ε : Type} (innerTo : α → Except ε JSValue)
    (x : Option α) : Except ε JSValue :=
  .ok (((x.map fun y => (innerTo y).toOption).join).getD .vnull)

/-- `impl FFICompat for Result<T, E>`: the body of `from_value` is
`unimplemented!()`, an unconditional panic; modelled as an unconditional
failure that depends on nothing. -/
def ResultFFI.from_value {α ε : Type} (_v : JSValue) :
    Except String (Except ε α) :=
  .error "not implemented"

/-- `impl FFICompat for Result<T, E>`: `Ok(v)` encodes the inner value
(inner errors re-rendered with `format!("{:?}", e)`), `Err(e)` becomes
`Err(format!("{:?}", e))`. -/
def ResultFFI.to_value {α εI εE : Type} (innerTo : α → Except εI JSValue)
    (dbgI : εI → String) (dbgE : εE → String) (x : Except εE α) :
    Except String JSValue :=
  match x with
  | .ok v => (innerTo v).mapError dbgI
  | .error e => .error (dbgE e)

/-- The element loop of `impl FFICompat for Vec<T>::from_value`:
`for i in 0..value.length() { values.push(T::from_value(value.get_index(..), ..)?) }`,
first element failure aborting with that element's error. -/
def VecFFI.decodeElems {α ε : Type} (inner : JSValue → Except ε α) :
    List JSValue → Except ε (List α)
  | [] => .ok []
  | x :: xs => do
    let a ← inner x
    let rest ← VecFFI.decodeElems inner xs
    pure (a :: rest)

/-- `impl FFICompat for Vec<T>::from_value`: a value that does not
downcast to `v8::Array` yields `Ok(vec![])`; an Array is decoded element
by element in index order. -/
def VecFFI.from_value {α ε : Type} (inner : JSValue → Except ε α)
    (v : JSValue) : Except ε (List α) :=
  match v with
  | .varr elems => VecFFI.decodeElems inner elems
  | _ => .ok []

/-- The element loop of `impl FFICompat for Vec<T>::to_value`:
`self.into_iter().map(|x| x.to_value(..)).collect()`. -/
def VecFFI.encodeElems {α ε : Type} (innerTo : α → Except ε JSValue) :
    List α → Except ε (List JSValue)
  | [] => .ok []
  | x :: xs => do
    let v ← innerTo x
    let rest ← VecFFI.encodeElems innerTo xs
    pure (v :: rest)

/-- `impl FFICompat for Vec<T>::to_value`: encode every element, then
`v8::Array::new_with_elements`. -/
def VecFFI.to_value {α ε : Type} (innerTo : α → Except ε JSValue)
    (xs : List α) : Except ε JSValue :=
  (VecFFI.encodeElems innerTo xs).map .varr

/-- `impl FFICompat for (A1, A2)::from_value`: requires an Array of length
exactly 2; each slot (read with `get_index`, missing entries becoming
`undefined`) decodes through its own type, errors re-rendered with
`format!("{:?}", e)`. -/
def Tuple2FFI.from_value {α β εa εb : Type}
    (fA : JSValue → Except εa α) (dbgA : εa → String)
    (fB : JSValue → Except εb β) (dbgB : εb → String)
    (v : JSValue) : Except String (α × β) :=
  match v with
  | .varr elems =>
    if elems.length ≠ 2 then .error "expected 2-length array for tuple ffi"
    else do
      let a ← (fA (elems.getD 0 .vundefined)).mapError dbgA
      let b ← (fB (elems.getD 1 .vundefined)).mapError dbgB
      pure (a, b)
  | _ => .error "expected array for tuple ffi"

/-- `impl FFICompat for (A1, A2)::to_value`: encode each slot in order and
build `v8::Array::new_with_elements(scope, &[v1, v2])`. -/
def Tuple2FFI.to_value {α β εa εb : Type}
    (tA : α → Except εa JSValue) (dbgA : εa → String)
    (tB : β → Except εb JSValue) (dbgB : εb → String)
    (x : α × β) : Except String JSValue := do
  let v1 ← (tA x.1).mapError dbgA
  let v2 ← (tB x.2).mapError dbgB
  pure (.varr [v1, v2])

/-- `impl FFICompat for (A1, A2, A3)::from_value`. -/
def Tuple3FFI.from_value {α β γ εa εb εc : Type}
    (fA : JSValue → Except εa α) (dbgA : εa → String)
    (fB : JSValue → Except εb β) (dbgB : εb → String)
    (fC : JSValue → Except εc γ) (dbgC : εc → String)
    (v : JSValue) : Except String (α × β × γ) :=
  match v with
  | .varr elems =>
    if elems.length ≠ 3 then .error "expected 3-length array for tuple ffi"
    else do
      let a ← (fA (elems.getD 0 .vundefined)).mapError dbgA
      let b ← (fB (elems.getD 1 .vundefined)).mapError dbgB
      let c ← (fC (elems.getD 2 .vundefined)).mapError dbgC
      pure (a, b, c)
  | _ => .error "expected array for tuple ffi"

/-- `impl FFICompat for (A1, A2, A3)::to_value`. -/
def Tuple3FFI.to_value {α β γ εa εb εc : Type}
    (tA : α → Except εa JSValue) (dbgA : εa → String)
    (tB : β → Except εb JSValue) (dbgB : εb → String)
    (tC : γ → Except εc JSValue) (dbgC : εc → String)
    (x : α × β × γ) : Except String JSValue := do
  let v1 ← (tA x.1).mapError dbgA
  let v2 ← (tB x.2.1).mapError dbgB
  let v3 ← (tC x.2.2).mapError dbgC
  pure (.varr [v1, v2, v3])

/-- `impl FFICompat for (A1, A2, A3, A4)::from_value`. -/
def Tuple4FFI.from_value {α β γ δ εa εb εc εd : Type}
    (fA : JSValue → Except εa α) (dbgA : εa → String)
    (fB : JSValue → Except εb β) (dbgB : εb → String)
    (fC : JSValue → Except εc γ) (dbgC : εc → String)
    (fD : JSValue → Except εd δ) (dbgD : εd → String)
    (v : JSValue) : Except String (α × β × γ × δ) :=
  match v with
  | .varr elems =>
    if elems.length ≠ 4 then .error "expected 4-length array for tuple ffi"
    else do
      let a ← (fA (elems.getD 0 .vundefined)).mapError dbgA
      let b ← (fB (elems.getD 1 .vundefined)).mapError dbgB
      let c ← (fC (elems.getD 2 .vundefined)).mapError dbgC
      let d ← (fD (elems.getD 3 .vundefined)).mapError dbgD
      pure (a, b, c, d)
  | _ => .error "expected array for tuple ffi"

/-- `impl FFICompat for (A1, A2, A3, A4)::to_value`. -/
def Tuple4FFI.to_value {α β γ δ εa εb εc εd : Type}
    (tA : α → Except εa JSValue) (dbgA : εa → String)
    (tB : β → Except εb JSValue) (dbgB : εb → String)
    (tC : γ → Except εc JSValue) (dbgC : εc → String)
    (tD : δ → Except εd JSValue) (dbgD : εd → String)
    (x : α × β × γ × δ) : Except String JSValue := do
  let v1 ← (tA x.1).mapError dbgA
  let v2 ← (tB x.2.1).mapError dbgB
  let v3 ← (tC x.2.2.1).mapError dbgC
  let v4 ← (tD x.2.2.2).mapError dbgD
  pure (.varr [v1, v2, v3, v4])

/-- `impl FFICompat for (A1, A2, A3, A4, A5)::from_value`. -/
def Tuple5FFI.from_value {α β γ δ ζ εa εb εc εd εe : Type}
    (fA : JSValue → Except εa α) (dbgA : εa → String)
    (fB : JSValue → Except εb β) (dbgB : εb → String)
    (fC : JSValue → Except εc γ) (dbgC : εc → String)
    (fD : JSValue → Except εd δ) (dbgD : εd → String)
    (fE : JSValue → Except εe ζ) (dbgE : εe → String)
    (v : JSValue) : Except String (α × β × γ × δ × ζ) :=
  match v with
  | .varr elems =>
    if elems.length ≠ 5 then .error "expected 5-length array for tuple ffi"
    else do
      let a ← (fA (elems.getD 0 .vundefined)).mapError dbgA
      let b ← (fB (elems.getD 1 .vundefined)).mapError dbgB
      let c ← (fC (elems.getD 2 .vundefined)).mapError dbgC
      let d ← (fD (elems.getD 3 .vundefined)).mapError dbgD
      let e ← (fE (elems.getD 4 .vundefined)).mapError dbgE
      pure (a, b, c, d, e)
  | _ => .error "expected array for tuple ffi"

/-- `impl FFICompat for (A1, A2, A3, A4, A5)::to_value`. -/
def Tuple5FFI.to_value {α β γ δ ζ εa εb εc εd εe : Type}
    (tA : α → Except εa JSValue) (dbgA : εa → String)
    (tB : β → Except εb JSValue) (dbgB : εb → String)
    (tC : γ → Except εc JSValue) (dbgC : εc → String)
    (tD : δ → Except εd JSValue) (dbgD : εd → String)
    (tE : ζ → Except εe JSValue) (dbgE : εe → String)
    (x : α × β × γ × δ × ζ) : Except String JSValue := do
  let v1 ← (tA x.1).mapError dbgA
  let v2 ← (tB x.2.1).mapError dbgB
  let v3 ← (tC x.2.2.1).mapError dbgC
  let v4 ← (tD x.2.2.2.1).mapError dbgD
  let v5 ← (tE x.2.2.2.2).mapError dbgE
  pure (.varr [v1, v2, v3, v4, v5])

/-! ## The return postlude of the call adapter

`impl_v8_ffi` (in `rusty_v8_helper_derive/src/lib.rs`) generates, for a
function with a non-receiver return type, the postlude

```
let __v8_ffi_value = __returned.to_value(__v8_ffi_scope, __v8_ffi_context);
match __v8_ffi_value {
    Ok(v) => __v8_ffi_rv.set(v),
    Err(e) => { throw_exception(scope, &format!("{:?}", e)); return; }
}
```

`format!("{:?}", e)` on the `String` error is std `Debug` formatting:
the text between double quotes, special characters escaped. -/

/-- `Debug`-escaping of one character, as applied by `format!("{:?}", s)`
on a string (model covering the quote, backslash and the common control
characters; other characters print as themselves). -/
def escapeDebugChar (c : Char) : List Char :=
  if c = '"' then ['\\', '"']
  else if c = '\\' then ['\\', '\\']
  else if c = '\n' then ['\\', 'n']
  else if c = '\t' then ['\\', 't']
  else if c = '\r' then ['\\', 'r']
  else [c]

/-- Whether `Debug` formatting rewrites the character. -/
def needsEscape (c : Char) : Bool :=
  c == '"' || c == '\\' || c == '\n' || c == '\t' || c == '\r'

/-- `format!("{:?}", s)` for a string `s`. -/
def rustDebugStr (s : String) : String :=
  ⟨'"' :: s.data.flatMap escapeDebugChar ++ ['"']⟩

/-- Outcome of one engine-invoked call: the engine return slot
(`__v8_ffi_rv`) and the pending exception raised through
`throw_exception`, if any. -/
structure CallResult where
  rv : Option JSValue
  thrown : Option String

/-- The generated return postlude: encode the native return value; on
success store it in the return slot, on failure raise an exception
carrying `format!("{:?}", e)` and leave the return slot unset. -/
def returnPostlude {ρ ε : Type} (toValue : ρ → Except ε JSValue)
    (dbg : ε → String) (returned : ρ) : CallResult :=
  match toValue returned with
  | .ok v => { rv := some v, thrown := none }
  | .error e => { rv := none, thrown := some (dbg e) }

/-! ## The native object wrapper of `object_wrap.rs`

State is split between the engine heap (`V8Heap`: the `Rc` cells of the
wrapped payloads and the engine objects with their internal slots) and the
wrapper's own fields (`ObjectWrapSt`, mirroring `ObjectWrapInternal`).
Payloads and objects are addressed by indices into the heap's lists; a
deallocated payload or reclaimed object is `none`.  `Rc::clone`,
`Rc::from_raw`/`Rc::into_raw` pairs and `drop` become explicit reference
count increments and decrements. -/

/-- One reference-counted payload cell (`Rc<T>`): its strong count and the
wrapped value. -/
structure RcCell (α : Type) where
  strong : Nat
  value : α
deriving DecidableEq

/-- An engine object: its internal field slots, each holding one raw
pointer-sized word (slot 0 = type tag, slot 1 = payload pointer for
wrapped objects).  `internal_field_count` is `slots.length`. -/
structure JSObject where
  slots : List Nat
deriving DecidableEq

/-- The engine heap: payload `Rc` cells and engine objects, by index;
`none` marks a deallocated payload or a GC-reclaimed object. -/
structure V8Heap (α : Type) where
  payloads : List (Option (RcCell α))
  objects : List (Option JSObject)
deriving DecidableEq

/-- Look up a payload cell. -/
def V8Heap.getPayload {α : Type} (h : V8Heap α) (p : Nat) : Option (RcCell α) :=
  h.payloads.getD p none

/-- Strong reference count of a payload (0 once deallocated). -/
def V8Heap.strength {α : Type} (h : V8Heap α) (p : Nat) : Nat :=
  match h.getPayload p with
  | some c => c.strong
  | none => 0

/-- `Rc::clone` on the payload at `p` followed by `Rc::into_raw`: one more
strong reference. -/
def V8Heap.incRef {α : Type} (h : V8Heap α) (p : Nat) : V8Heap α :=
  match h.getPayload p with
  | some c => { h with payloads := h.payloads.set p (some { c with strong := c.strong + 1 }) }
  | none => h

/-- `drop(Rc::from_raw(p))`: one strong reference released; the cell is
deallocated when the last one goes. -/
def V8Heap.decRef {α : Type} (h : V8Heap α) (p : Nat) : V8Heap α :=
  match h.getPayload p with
  | some c =>
    if c.strong ≤ 1 then { h with payloads := h.payloads.set p none }
    else { h with payloads := h.payloads.set p (some { c with strong := c.strong - 1 }) }
  | none => h

/-- `Rc::into_raw(Rc::new(x))`: a fresh payload cell with one strong
reference; returns its index. -/
def V8Heap.allocPayload {α : Type} (h : V8Heap α) (x : α) : Nat × V8Heap α :=
  (h.payloads.length, { h with payloads := h.payloads ++ [some ⟨1, x⟩] })

/-- The wrapper's own fields (`ObjectWrapInternal<T>`): the nullable
`Global<Object>` handle, the nullable raw payload pointer, whether the
weak-callback self-reference is currently held, and whether the global is
weak. -/
structure ObjectWrapSt where
  handle : Option Nat
  wrapping : Option Nat
  v8_reference : Bool
  weak : Bool
deriving DecidableEq

/-- `type_id_to_u64::<T>()`: `TypeIdHasher` retains the first 8 bytes of
the bytes hashed from `TypeId::of::<T>()`; `finish` reads them as a
little-endian `u64` and the result is masked with `& !1_u64`
("must be 2 byte aligned").  The argument `t` is that 8-byte prefix as a
`u64`; `0xFFFFFFFFFFFFFFFE = 2 ^ 64 - 2` is `!1_u64`. -/
def type_id_to_u64 (t : Nat) : Nat :=
  t &&& 0xFFFFFFFFFFFFFFFE

/-- `ObjectWrap::new(scope, object, wrap)`: asserts the object has exactly
2 internal fields (the `assert_eq!` panic is modelled as `none`), moves the
payload into a fresh `Rc`, stamps slot 0 with the type tag and slot 1 with
the payload pointer, and creates the wrapper holding the global handle, the
payload pointer and — through `set_weakable` — its weak-callback
self-reference.  `typeHash` is the 8-byte `TypeId` prefix of the wrapped
type. -/
def ObjectWrap.new {α : Type} (typeHash : Nat) (oid : Nat) (x : α)
    (h : V8Heap α) : Option (ObjectWrapSt × V8Heap α) :=
  match h.objects.getD oid none with
  | none => none
  | some obj =>
    if obj.slots.length ≠ 2 then none
    else
      let (pid, h1) := h.allocPayload x
      let obj2 : JSObject := { obj with slots := (obj.slots.set 0 (type_id_to_u64 typeHash)).set 1 pid }
      let h2 : V8Heap α := { h1 with objects := h1.objects.set oid (some obj2) }
      some (⟨some oid, some pid, true, false⟩, h2)

/-- `ObjectWrap::from_object(object)`: reject unless the object has exactly
2 internal fields and slot 0 equals this type's tag; on a match, clone a
new `Rc` out of the payload pointer in slot 1 (`Rc::from_raw`, `clone`,
`Rc::into_raw`), leaving every other reference in place. -/
def ObjectWrap.from_object {α : Type} (typeHash : Nat) (object : JSObject)
    (h : V8Heap α) : Option Nat × V8Heap α :=
  if object.slots.length ≠ 2 then (none, h)
  else if type_id_to_u64 typeHash ≠ object.slots.getD 0 0 then (none, h)
  else
    let pid := object.slots.getD 1 0
    (some pid, h.incRef pid)

/-- `ObjectWrap::get(scope)`: `self.0.handle.borrow().as_ref()?.get(scope)`
— the engine object, unless the handle was cleared or the engine reclaimed
the object. -/
def ObjectWrap.get {α : Type} (w : ObjectWrapSt) (h : V8Heap α) : Option Nat :=
  match w.handle with
  | none => none
  | some oid =>
    match h.objects.getD oid none with
    | none => none
    | some _ => some oid

/-- `ObjectWrap::unwrap(scope)`: resolve the engine object through the
handle, read the payload pointer from slot 1 and clone one more `Rc` out
of it. -/
def ObjectWrap.unwrap {α : Type} (w : ObjectWrapSt) (h : V8Heap α) :
    Option Nat × V8Heap α :=
  match w.handle with
  | none => (none, h)
  | some oid =>
    match h.objects.getD oid none with
    | none => (none, h)
    | some obj =>
      let pid := obj.slots.getD 1 0
      (some pid, h.incRef pid)

/-- `ObjectWrap::swap(scope, wrap)`: resolve the engine object, take over
the old payload's reference (`Rc::from_raw`, returned to the caller
without touching its count), allocate the new payload, store its pointer
in the `wrapping` field and in slot 1. -/
def ObjectWrap.swap {α : Type} (w : ObjectWrapSt) (h : V8Heap α) (x : α) :
    Option Nat × ObjectWrapSt × V8Heap α :=
  match w.handle with
  | none => (none, w, h)
  | some oid =>
    match h.objects.getD oid none with
    | none => (none, w, h)
    | some obj =>
      if obj.slots.length ≠ 2 then (none, w, h)
      else
        let oldPid := obj.slots.getD 1 0
        let (newPid, h1) := h.allocPayload x
        let w2 : ObjectWrapSt := { w with wrapping := some newPid }
        let h2 : V8Heap α :=
          { h1 with objects := h1.objects.set oid (some { obj with slots := obj.slots.set 1 newPid }) }
        (some oldPid, w2, h2)

/-- `ObjectWrap::make_weak`: `global.set_weak()` when the handle is still
held. -/
def ObjectWrap.make_weak (w : ObjectWrapSt) : ObjectWrapSt :=
  match w.handle with
  | some _ => { w with weak := true }
  | none => w

/-- `wrap_weak_callback::<T>`: recover the wrapper from the leaked
self-reference (`Rc::from_raw`, so the self-reference is consumed); if the
handle is still held, clear it (`set_isolate(isolate, None)`), take the
`wrapping` pointer and release that payload reference
(`drop(Rc::from_raw(ref_ptr))`). -/
def wrap_weak_callback {α : Type} (w : ObjectWrapSt) (h : V8Heap α) :
    ObjectWrapSt × V8Heap α :=
  let w1 : ObjectWrapSt := { w with v8_reference := false }
  match w1.handle with
  | none => (w1, h)
  | some _ =>
    let w2 : ObjectWrapSt := { w1 with handle := none }
    match w2.wrapping with
    | none => (w2, h)
    | some pid => ({ w2 with wrapping := none }, h.decRef pid)

/-- One simulated engine reclamation step: the GC may collect the object
behind a live weak handle; it frees the engine object and invokes the
registered finalization callback. -/
def gcReclaim {α : Type} (w : ObjectWrapSt) (h : V8Heap α) :
    ObjectWrapSt × V8Heap α :=
  match w.handle with
  | some oid =>
    if w.weak then
      wrap_weak_callback w { h with objects := h.objects.set oid none }
    else (w, h)
  | none => (w, h)

/-! ## Theorems -/

/-- Claim C3: decoding any engine value as `Option<T>` never returns an
error — an inner decode failure (for instance on `null` or `undefined`)
yields `Ok(None)` and an inner success is passed through; encoding `None`,
or `Some` whose inner encode fails, produces the engine `null`, while a
successful inner encode is delegated to unchanged. -/
theorem optionCodec_leniency {α ε : Type} (inner : JSValue → Except ε α)
    (innerTo : α → Except ε JSValue) (v : JSValue) :
    (∃ r, OptionFFI.from_value inner v = .ok r) ∧
    (∀ e, inner v = .error e → OptionFFI.from_value inner v = .ok none) ∧
    (∀ a, inner v = .ok a → OptionFFI.from_value inner v = .ok (some a)) ∧
    (OptionFFI.to_value innerTo none = .ok .vnull) ∧
    (∀ x e, innerTo x = .error e → OptionFFI.to_value innerTo (some x) = .ok .vnull) ∧
    (∀ x j, innerTo x = .ok j → OptionFFI.to_value innerTo (some x) = .ok j) := by
  refine ⟨⟨(inner v).toOption, rfl⟩, ?_, ?_, rfl, ?_, ?_⟩ <;> intros <;>
    simp_all [OptionFFI.from_value, OptionFFI.to_value, Except.toOption]

/-- Witness for C3: the `Option<String>` codec on `null` (inner decode
fails, absent comes back without an error) and on a present value. -/
theorem optionCodec_leniency_witness :
    OptionFFI.from_value StringFFI.from_value .vnull = .ok none ∧
    OptionFFI.to_value StringFFI.to_value (some "a") = .ok (.vstr "a") :=
  ⟨(optionCodec_leniency StringFFI.from_value StringFFI.to_value .vnull).2.1 _ rfl,
   (optionCodec_leniency StringFFI.from_value StringFFI.to_value .vnull).2.2.2.2.2 "a" _ rfl⟩

/-- Claim C7: decoding an engine value as a `Result<T, E>` argument fails
unconditionally (`unimplemented!()`); no input produces a success value. -/
theorem resultDecode_unsupported {α ε : Type} (v : JSValue) :
    (∃ e, (ResultFFI.from_value v : Except String (Except ε α)) = .error e) ∧
    ∀ r : Except ε α, (ResultFFI.from_value v : Except String (Except ε α)) ≠ .ok r :=
  ⟨⟨"not implemented", rfl⟩, fun _ hc => by simp [ResultFFI.from_value] at hc⟩

/-- Witness for C7 at a concrete value and candidate result. -/
theorem resultDecode_unsupported_witness :
    (ResultFFI.from_value .vnull : Except String (Except String Nat)) ≠ .ok (.ok 0) :=
  (resultDecode_unsupported .vnull).2 (.ok 0)

/-- Claim C4: decoding a non-Array engine value as `Vec<T>` yields
`Ok(vec![])`, never an error; decoding an Array decodes the elements at
indices `0..length` in order through the element codec, and the first
element whose decode fails aborts the whole decode with exactly that
element's error (no partial result). -/
theorem vecDecode_spec {α ε : Type} (inner : JSValue → Except ε α) :
    (∀ v : JSValue, (∀ xs, v ≠ .varr xs) → VecFFI.from_value inner v = .ok []) ∧
    (∀ elems, (∀ y ∈ elems, ∃ a, inner y = .ok a) →
      ∃ out, VecFFI.from_value inner (.varr elems) = .ok out ∧
        out.length = elems.length ∧
        ∀ i, ∀ hi : i < elems.length, ∀ ho : i < out.length,
          inner (elems.get ⟨i, hi⟩) = .ok (out.get ⟨i, ho⟩)) ∧
    (∀ pre x suf e, (∀ y ∈ pre, ∃ a, inner y = .ok a) → inner x = .error e →
      VecFFI.from_value inner (.varr (pre ++ x :: suf)) = .error e) := by
  refine ⟨?_, ?_, ?_⟩
  · intro v hv
    cases v <;> first | rfl | exact absurd rfl (hv _)
  · intro elems h
    show ∃ out, VecFFI.decodeElems inner elems = .ok out ∧ _
    induction elems with
    | nil => exact ⟨[], rfl, rfl, fun i hi => absurd hi (by simp)⟩
    | cons y ys ih =>
      obtain ⟨a, ha⟩ := h y (by simp)
      obtain ⟨out, hout, hlen, hpt⟩ := ih (fun z hz => h z (by simp [hz]))
      refine ⟨a :: out, ?_, by simpa using hlen, ?_⟩
      · simp [VecFFI.decodeElems, ha, hout, Bind.bind, Except.bind, Pure.pure, Except.pure]
      · intro i hi ho
        match i with
        | 0 => simpa using ha
        | i + 1 => simpa using hpt i (by simpa using hi) (by simpa using ho)
  · intro pre x suf e hpre hx
    show VecFFI.decodeElems inner (pre ++ x :: suf) = .error e
    induction pre with
    | nil => simp [VecFFI.decodeElems, hx, Bind.bind, Except.bind, Pure.pure, Except.pure]
    | cons y ys ih =>
      obtain ⟨a, ha⟩ := hpre y (by simp)
      simp [VecFFI.decodeElems, ha, ih (fun z hz => hpre z (by simp [hz])),
        Bind.bind, Except.bind, Pure.pure, Except.pure]

/-- Witness for C4: the `Vec<String>` codec returns the empty vector on a
Number, decodes `["a", "b"]`, and aborts on `["a", 1]` with the inner
error. -/
theorem vecDecode_spec_witness :
    VecFFI.from_value StringFFI.from_value (.vnum 3) = .ok [] ∧
    VecFFI.from_value StringFFI.from_value (.varr [.vstr "a", .vstr "b"]) = .ok ["a", "b"] ∧
    VecFFI.from_value StringFFI.from_value (.varr [.vstr "a", .vnum 1]) =
      .error "invalid type for argument in ffi call, expected string" := by
  refine ⟨(vecDecode_spec StringFFI.from_value).1 (.vnum 3) (fun xs h => by cases h), ?_, ?_⟩
  · obtain ⟨out, hout, hlen, hpt⟩ :=
      (vecDecode_spec StringFFI.from_value).2.1 [.vstr "a", .vstr "b"]
        (by intro y hy; fin_cases hy <;> exact ⟨_, rfl⟩)
    have h0 := hpt 0 (by simp) (by simp [hlen])
    have h1 := hpt 1 (by simp) (by simp [hlen])
    match out, hlen with
    | [o0, o1], _ =>
      simp only [List.get] at h0 h1
      cases h0; cases h1; exact hout
  · exact (vecDecode_spec StringFFI.from_value).2.2 [.vstr "a"] (.vnum 1) [] _
      (by intro y hy; fin_cases hy; exact ⟨_, rfl⟩) rfl

/-- Claim C5: for every tuple arity N in 2..=5, decoding a non-Array is an
error, decoding an Array whose length is not N is an error naming N
("expected N-length array for tuple ffi"), decoding a length-N Array
decodes each slot independently through that slot's own type with the
first slot failure aborting the whole decode, and encoding builds an Array
whose index i holds slot i's encoding. -/
theorem tupleCodec_spec {α β γ δ ζ εa εb εc εd εe : Type}
    (fA : JSValue → Except εa α) (dbgA : εa → String) (tA : α → Except εa JSValue)
    (fB : JSValue → Except εb β) (dbgB : εb → String) (tB : β → Except εb JSValue)
    (fC : JSValue → Except εc γ) (dbgC : εc → String) (tC : γ → Except εc JSValue)
    (fD : JSValue → Except εd δ) (dbgD : εd → String) (tD : δ → Except εd JSValue)
    (fE : JSValue → Except εe ζ) (dbgE : εe → String) (tE : ζ → Except εe JSValue) :
    -- arity 2
    ((∀ v, (∀ xs, v ≠ .varr xs) →
        Tuple2FFI.from_value fA dbgA fB dbgB v = .error "expected array for tuple ffi") ∧
      (∀ elems, elems.length ≠ 2 →
        Tuple2FFI.from_value fA dbgA fB dbgB (.varr elems)
          = .error "expected 2-length array for tuple ffi") ∧
      (∀ v1 v2 a b, fA v1 = .ok a → fB v2 = .ok b →
        Tuple2FFI.from_value fA dbgA fB dbgB (.varr [v1, v2]) = .ok (a, b)) ∧
      (∀ v1 v2 e, fA v1 = .error e →
        Tuple2FFI.from_value fA dbgA fB dbgB (.varr [v1, v2]) = .error (dbgA e)) ∧
      (∀ v1 v2 a e, fA v1 = .ok a → fB v2 = .error e →
        Tuple2FFI.from_value fA dbgA fB dbgB (.varr [v1, v2]) = .error (dbgB e)) ∧
      (∀ a b j1 j2, tA a = .ok j1 → tB b = .ok j2 →
        Tuple2FFI.to_value tA dbgA tB dbgB (a, b) = .ok (.varr [j1, j2]))) ∧
    -- arity 3
    ((∀ v, (∀ xs, v ≠ .varr xs) →
        Tuple3FFI.from_value fA dbgA fB dbgB fC dbgC v
          = .error "expected array for tuple ffi") ∧
      (∀ elems, elems.length ≠ 3 →
        Tuple3FFI.from_value fA dbgA fB dbgB fC dbgC (.varr elems)
          = .error "expected 3-length array for tuple ffi") ∧
      (∀ v1 v2 v3 a b c, fA v1 = .ok a → fB v2 = .ok b → fC v3 = .ok c →
        Tuple3FFI.from_value fA dbgA fB dbgB fC dbgC (.varr [v1, v2, v3])
          = .ok (a, b, c)) ∧
      (∀ v1 v2 v3 e, fA v1 = .error e →
        Tuple3FFI.from_value fA dbgA fB dbgB fC dbgC (.varr [v1, v2, v3])
          = .error (dbgA e)) ∧
      (∀ v1 v2 v3 a e, fA v1 = .ok a → fB v2 = .error e →
        Tuple3FFI.from_value fA dbgA fB dbgB fC dbgC (.varr [v1, v2, v3])
          = .error (dbgB e)) ∧
      (∀ v1 v2 v3 a b e, fA v1 = .ok a → fB v2 = .ok b → fC v3 = .error e →
        Tuple3FFI.from_value fA dbgA fB dbgB fC dbgC (.varr [v1, v2, v3])
          = .error (dbgC e)) ∧
      (∀ a b c j1 j2 j3, tA a = .ok j1 → tB b = .ok j2 → tC c = .ok j3 →
        Tuple3FFI.to_value tA dbgA tB dbgB tC dbgC (a, b, c)
          = .ok (.varr [j1, j2, j3]))) ∧
    -- arity 4
    ((∀ v, (∀ xs, v ≠ .varr xs) →
        Tuple4FFI.from_value fA dbgA fB dbgB fC dbgC fD dbgD v
          = .error "expected array for tuple ffi") ∧
      (∀ elems, elems.length ≠ 4 →
        Tuple4FFI.from_value fA dbgA fB dbgB fC dbgC fD dbgD (.varr elems)
          = .error "expected 4-length array for tuple ffi") ∧
      (∀ v1 v2 v3 v4 a b c d, fA v1 = .ok a → fB v2 = .ok b → fC v3 = .ok c →
          fD v4 = .ok d →
        Tuple4FFI.from_value fA dbgA fB dbgB fC dbgC fD dbgD (.varr [v1, v2, v3, v4])
          = .ok (a, b, c, d)) ∧
      (∀ v1 v2 v3 v4 e, fA v1 = .error e →
        Tuple4FFI.from_value fA dbgA fB dbgB fC dbgC fD dbgD (.varr [v1, v2, v3, v4])
          = .error (dbgA e)) ∧
      (∀ v1 v2 v3 v4 a e, fA v1 = .ok a → fB v2 = .error e →
        Tuple4FFI.from_value fA dbgA fB dbgB fC dbgC fD dbgD (.varr [v1, v2, v3, v4])
          = .error (dbgB e)) ∧
      (∀ v1 v2 v3 v4 a b e, fA v1 = .ok a → fB v2 = .ok b → fC v3 = .error e →
        Tuple4FFI.from_value fA dbgA fB dbgB fC dbgC fD dbgD (.varr [v1, v2, v3, v4])
          = .error (dbgC e)) ∧
      (∀ v1 v2 v3 v4 a b c e, fA v1 = .ok a → fB v2 = .ok b → fC v3 = .ok c →
          fD v4 = .error e →
        Tuple4FFI.from_value fA dbgA fB dbgB fC dbgC fD dbgD (.varr [v1, v2, v3, v4])
          = .error (dbgD e)) ∧
      (∀ a b c d j1 j2 j3 j4, tA a = .ok j1 → tB b = .ok j2 → tC c = .ok j3 →
          tD d = .ok j4 →
        Tuple4FFI.to_value tA dbgA tB dbgB tC dbgC tD dbgD (a, b, c, d)
          = .ok (.varr [j1, j2, j3, j4]))) ∧
    -- arity 5
    ((∀ v, (∀ xs, v ≠ .varr xs) →
        Tuple5FFI.from_value fA dbgA fB dbgB fC dbgC fD dbgD fE dbgE v
          = .error "expected array for tuple ffi") ∧
      (∀ elems, elems.length ≠ 5 →
        Tuple5FFI.from_value fA dbgA fB dbgB fC dbgC fD dbgD fE dbgE (.varr elems)
          = .error "expected 5-length array for tuple ffi") ∧
      (∀ v1 v2 v3 v4 v5 a b c d e2, fA v1 = .ok a → fB v2 = .ok b → fC v3 = .ok c →
          fD v4 = .ok d → fE v5 = .ok e2 →
        Tuple5FFI.from_value fA dbgA fB dbgB fC dbgC fD dbgD fE dbgE
          (.varr [v1, v2, v3, v4, v5]) = .ok (a, b, c, d, e2)) ∧
      (∀ v1 v2 v3 v4 v5 e, fA v1 = .error e →
        Tuple5FFI.from_value fA dbgA fB dbgB fC dbgC fD dbgD fE dbgE
          (.varr [v1, v2, v3, v4, v5]) = .error (dbgA e)) ∧
      (∀ v1 v2 v3 v4 v5 a e, fA v1 = .ok a → fB v2 = .error e →
        Tuple5FFI.from_value fA dbgA fB dbgB fC dbgC fD dbgD fE dbgE
          (.varr [v1, v2, v3, v4, v5]) = .error (dbgB e)) ∧
      (∀ v1 v2 v3 v4 v5 a b e, fA v1 = .ok a → fB v2 = .ok b → fC v3 = .error e →
        Tuple5FFI.from_value fA dbgA fB dbgB fC dbgC fD dbgD fE dbgE
          (.varr [v1, v2, v3, v4, v5]) = .error (dbgC e)) ∧
      (∀ v1 v2 v3 v4 v5 a b c e, fA v1 = .ok a → fB v2 = .ok b → fC v3 = .ok c →
          fD v4 = .error e →
        Tuple5FFI.from_value fA dbgA fB dbgB fC dbgC fD dbgD fE dbgE
          (.varr [v1, v2, v3, v4, v5]) = .error (dbgD e)) ∧
      (∀ v1 v2 v3 v4 v5 a b c d e, fA v1 = .ok a → fB v2 = .ok b → fC v3 = .ok c →
          fD v4 = .ok d → fE v5 = .error e →
        Tuple5FFI.from_value fA dbgA fB dbgB fC dbgC fD dbgD fE dbgE
          (.varr [v1, v2, v3, v4, v5]) = .error (dbgE e)) ∧
      (∀ a b c d e j1 j2 j3 j4 j5, tA a = .ok j1 → tB b = .ok j2 → tC c = .ok j3 →
          tD d = .ok j4 → tE e = .ok j5 →
        Tuple5FFI.to_value tA dbgA tB dbgB tC dbgC tD dbgD tE dbgE (a, b, c, d, e)
          = .ok (.varr [j1, j2, j3, j4, j5]))) := by
  refine ⟨⟨?_, ?_, ?_, ?_, ?_, ?_⟩, ⟨?_, ?_, ?_, ?_, ?_, ?_, ?_⟩,
    ⟨?_, ?_, ?_, ?_, ?_, ?_, ?_, ?_⟩, ⟨?_, ?_, ?_, ?_, ?_, ?_, ?_, ?_, ?_⟩⟩ <;>
    intro v hv <;>
    first
    | (cases v <;> first | rfl | exact absurd rfl (hv _))
    | (intros
       simp_all [Tuple2FFI.from_value, Tuple2FFI.to_value, Tuple3FFI.from_value,
         Tuple3FFI.to_value, Tuple4FFI.from_value, Tuple4FFI.to_value,
         Tuple5FFI.from_value, Tuple5FFI.to_value, Except.mapError,
         Bind.bind, Except.bind, Pure.pure, Except.pure])

/-- Witness for C5: concrete decodes and encodes at arities 2, 3 and 5 —
a successful `(String, f64)` decode, the arity-naming length error, a slot
failure aborting an arity-3 decode, and an arity-2 encode. -/
theorem tupleCodec_spec_witness :
    Tuple2FFI.from_value StringFFI.from_value rustDebugStr F64FFI.from_value rustDebugStr
      (.varr [.vstr "test", .vnum 10]) = .ok ("test", 10) ∧
    Tuple5FFI.from_value StringFFI.from_value rustDebugStr F64FFI.from_value rustDebugStr
      BoolFFI.from_value rustDebugStr StringFFI.from_value rustDebugStr
      F64FFI.from_value rustDebugStr (.varr [.vstr "a"])
      = .error "expected 5-length array for tuple ffi" ∧
    Tuple3FFI.from_value StringFFI.from_value rustDebugStr F64FFI.from_value rustDebugStr
      BoolFFI.from_value rustDebugStr (.varr [.vstr "a", .vnull, .vbool true])
      = .error (rustDebugStr "invalid type for argument in ffi call, expected f64") ∧
    Tuple2FFI.to_value StringFFI.to_value rustDebugStr F64FFI.to_value rustDebugStr
      ("test", 10) = .ok (.varr [.vstr "test", .vnum 10]) := by
  obtain ⟨h2, h3, _, h5⟩ := tupleCodec_spec
    StringFFI.from_value rustDebugStr StringFFI.to_value
    F64FFI.from_value rustDebugStr F64FFI.to_value
    BoolFFI.from_value rustDebugStr BoolFFI.to_value
    StringFFI.from_value rustDebugStr StringFFI.to_value
    F64FFI.from_value rustDebugStr F64FFI.to_value
  exact ⟨h2.2.2.1 _ _ "test" 10 rfl rfl,
    h5.2.1 [.vstr "a"] (by simp),
    h3.2.2.2.2.1 _ _ _ "a" _ rfl rfl,
    h2.2.2.2.2.2 "test" 10 _ _ rfl rfl⟩

/-- An integer of magnitude at most `2 ^ 53` is exactly representable as a
binary64, so the cast to `f64` keeps it unchanged. -/
theorem round53_eq_self (x : Int) (h : x.natAbs ≤ 2 ^ 53) : round53 x = x := by
  simp only [round53]
  rw [if_pos h]

/-- Truncation toward zero of an integral rational. -/
theorem ratTrunc_intCast (x : Int) : ratTrunc (x : Rat) = x := by
  unfold ratTrunc
  rw [Rat.num_intCast, Rat.den_intCast]
  simp

/-- Claim C1, counterexample: `9007199254740993 = 2 ^ 53 + 1` is
representable in `i64` (well inside the type's range), yet
`decode(encode(x))` returns `2 ^ 53`, not `x`: the `i64 -> f64` cast of
the encoder already rounds it away, so the claimed round-trip equality for
every representable in-range value fails. -/
theorem int64Codec_roundtrip_counterexample :
    (I64FFI.to_value 9007199254740993).bind I64FFI.from_value
      = .ok 9007199254740992 ∧
    (9007199254740992 : Int) ≠ 9007199254740993 := by
  exact ⟨rfl, by decide⟩

/-- Claim C1, amended: `decode(encode(x)) = x` holds for every value of
`f64` (finite), `bool`, `String`, `i32` and `u32`; for `i64` and `u64` the
encoder first rounds `x` to the nearest binary64, so the round-trip
equality holds whenever `|x| ≤ 2 ^ 53` (exact double-representability),
and is otherwise the identity only up to that rounding.  The integer
decoders perform no range validation: every engine Number decodes
successfully, through double-precision truncation/saturation. -/
theorem primCodec_roundtrip_amended :
    (∀ q : Rat, (F64FFI.to_value q).bind F64FFI.from_value = .ok q) ∧
    (∀ b : Bool, (BoolFFI.to_value b).bind BoolFFI.from_value = .ok b) ∧
    (∀ s : String, (StringFFI.to_value s).bind StringFFI.from_value = .ok s) ∧
    (∀ x : Int, -(2 ^ 31) ≤ x → x < 2 ^ 31 →
      (I32FFI.to_value x).bind I32FFI.from_value = .ok x) ∧
    (∀ x : Nat, x < 2 ^ 32 →
      (U32FFI.to_value x).bind U32FFI.from_value = .ok x) ∧
    (∀ x : Int, x.natAbs ≤ 2 ^ 53 →
      (I64FFI.to_value x).bind I64FFI.from_value = .ok x) ∧
    (∀ x : Nat, x ≤ 2 ^ 53 →
      (U64FFI.to_value x).bind U64FFI.from_value = .ok x) ∧
    (∀ q : Rat, I64FFI.from_value (.vnum q) = .ok (f64_as_i64 q)) ∧
    (∀ q : Rat, U64FFI.from_value (.vnum q) = .ok (f64_as_u64 q)) ∧
    (∀ q : Rat, I32FFI.from_value (.vnum q) = .ok (f64_as_i32 q)) ∧
    (∀ q : Rat, U32FFI.from_value (.vnum q) = .ok (f64_as_u32 q)) := by
  refine ⟨fun q => rfl, fun b => by cases b <;> rfl, fun s => rfl,
    ?_, ?_, ?_, ?_, fun q => rfl, fun q => rfl, fun q => rfl, fun q => rfl⟩
  · intro x h1 h2
    have habs : x.natAbs ≤ 2 ^ 53 := by omega
    have hmin : min (2 ^ 31 - 1) x = x := min_eq_right (by omega)
    have hmax : max (-(2 ^ 31)) x = x := max_eq_right (by omega)
    simp only [I32FFI.to_value, i32_as_f64, round53_eq_self x habs, F64FFI.to_value,
      Except.bind, I32FFI.from_value, F64FFI.from_value, Except.map, f64_as_i32,
      ratTrunc_intCast, hmin, hmax]
  · intro x h1
    have habs : (x : Int).natAbs ≤ 2 ^ 53 := by omega
    have hmin : min (2 ^ 32 - 1) (x : Int) = x := min_eq_right (by omega)
    have hmax : max 0 (x : Int) = x := max_eq_right (by omega)
    simp only [U32FFI.to_value, u32_as_f64, round53_eq_self _ habs, F64FFI.to_value,
      Except.bind, U32FFI.from_value, F64FFI.from_value, Except.map, f64_as_u32,
      ratTrunc_intCast, hmin, hmax, Int.toNat_natCast]
  · intro x h1
    have hmin : min (2 ^ 63 - 1) x = x := min_eq_right (by omega)
    have hmax : max (-(2 ^ 63)) x = x := max_eq_right (by omega)
    simp only [I64FFI.to_value, i64_as_f64, round53_eq_self x h1, F64FFI.to_value,
      Except.bind, I64FFI.from_value, F64FFI.from_value, Except.map, f64_as_i64,
      ratTrunc_intCast, hmin, hmax]
  · intro x h1
    have habs : (x : Int).natAbs ≤ 2 ^ 53 := by omega
    have hmin : min (2 ^ 64 - 1) (x : Int) = x := min_eq_right (by omega)
    have hmax : max 0 (x : Int) = x := max_eq_right (by omega)
    simp only [U64FFI.to_value, u64_as_f64, round53_eq_self _ habs, F64FFI.to_value,
      Except.bind, U64FFI.from_value, F64FFI.from_value, Except.map, f64_as_u64,
      ratTrunc_intCast, hmin, hmax, Int.toNat_natCast]

/-- Witness for the amended C1 at concrete values of each type. -/
theorem primCodec_roundtrip_amended_witness :
    (I32FFI.to_value (-5)).bind I32FFI.from_value = .ok (-5) ∧
    (U32FFI.to_value 7).bind U32FFI.from_value = .ok 7 ∧
    (I64FFI.to_value 9007199254740992).bind I64FFI.from_value = .ok 9007199254740992 ∧
    (U64FFI.to_value 12).bind U64FFI.from_value = .ok 12 :=
  ⟨primCodec_roundtrip_amended.2.2.2.1 (-5) (by decide) (by decide),
   primCodec_roundtrip_amended.2.2.2.2.1 7 (by decide),
   primCodec_roundtrip_amended.2.2.2.2.2.1 9007199254740992 (by decide),
   primCodec_roundtrip_amended.2.2.2.2.2.2.1 12 (by decide)⟩

/-- Characters that `Debug` formatting leaves alone print as themselves. -/
theorem flatMap_escape_id (l : List Char) (h : ∀ c ∈ l, needsEscape c = false) :
    l.flatMap escapeDebugChar = l := by
  induction l with
  | nil => rfl
  | cons c cs ih =>
    have hc := h c (by simp)
    simp only [needsEscape, Bool.or_eq_false_iff, beq_eq_false_iff_ne] at hc
    obtain ⟨⟨⟨⟨h1, h2⟩, h3⟩, h4⟩, h5⟩ := hc
    simp [escapeDebugChar, h1, h2, h3, h4, h5, ih (fun d hd => h d (by simp [hd]))]

/-- Claim C6: when a native function exposed through the call adapter
returns `Result<T, E>`, an `Err(e)` makes the generated postlude raise an
engine exception whose message is the `Debug` rendering of the error's
debug text — in particular containing the debug text whenever it needs no
escaping — and leaves the engine return slot unset, while an `Ok(v)` whose
inner encode succeeds stores the encoded value in the return slot and
raises nothing. -/
theorem resultReturn_adapter {α εI εE : Type} (innerTo : α → Except εI JSValue)
    (dbgI : εI → String) (dbgE : εE → String) :
    (∀ e : εE,
      (returnPostlude (ResultFFI.to_value innerTo dbgI dbgE) rustDebugStr
        (.error e)).rv = none ∧
      (returnPostlude (ResultFFI.to_value innerTo dbgI dbgE) rustDebugStr
        (.error e)).thrown = some (rustDebugStr (dbgE e)) ∧
      ((∀ c ∈ (dbgE e).data, needsEscape c = false) →
        (dbgE e).data <:+: (rustDebugStr (dbgE e)).data)) ∧
    (∀ (v : α) (j : JSValue), innerTo v = .ok j →
      (returnPostlude (ResultFFI.to_value innerTo dbgI dbgE) rustDebugStr
        (.ok v)).rv = some j ∧
      (returnPostlude (ResultFFI.to_value innerTo dbgI dbgE) rustDebugStr
        (.ok v)).thrown = none) := by
  constructor
  · intro e
    refine ⟨rfl, rfl, fun hplain => ?_⟩
    refine ⟨['"'], ['"'], ?_⟩
    show ['"'] ++ (dbgE e).data ++ ['"'] = '"' :: (dbgE e).data.flatMap escapeDebugChar ++ ['"']
    rw [flatMap_escape_id (dbgE e).data hplain]
    rfl
  · intro v j hj
    simp [returnPostlude, ResultFFI.to_value, hj, Except.mapError]

/-- Witness for C6: a function whose error is the string "boom" — the
exception carries its debug text, the return slot stays empty. -/
theorem resultReturn_adapter_witness :
    (returnPostlude (ResultFFI.to_value StringFFI.to_value rustDebugStr
      (fun s : String => s)) rustDebugStr (.error "boom")).rv = none ∧
    (returnPostlude (ResultFFI.to_value StringFFI.to_value rustDebugStr
      (fun s : String => s)) rustDebugStr (.error "boom")).thrown
      = some (rustDebugStr "boom") ∧
    "boom".data <:+: (rustDebugStr "boom").data :=
  have h := (resultReturn_adapter StringFFI.to_value rustDebugStr
    (fun s : String => s)).1 "boom"
  ⟨h.1, h.2.1, h.2.2 (by decide)⟩

/-! ### Heap bookkeeping lemmas shared by the wrapper theorems -/

theorem listGetD_set_self {β : Type} (l : List β) (p : Nat)
    (c d : β) (hp : p < l.length) : (l.set p c).getD p d = c := by
  rw [List.getD_eq_getElem?_getD]
  simp [List.getElem?_set, hp]

theorem listGetD_set_ne {β : Type} (l : List β) (p q : Nat)
    (c d : β) (hq : q ≠ p) : (l.set p c).getD q d = l.getD q d := by
  rw [List.getD_eq_getElem?_getD, List.getD_eq_getElem?_getD]
  rw [List.getElem?_set]
  rw [if_neg (Ne.symm hq)]

theorem listGetD_lt {β : Type} (l : List (Option β)) (p : Nat) (c : β)
    (hc : l.getD p none = some c) : p < l.length := by
  rw [List.getD_eq_getElem?_getD] at hc
  cases hp : l[p]? with
  | none => simp [hp] at hc
  | some o => exact (List.getElem?_eq_some.mp hp).1

theorem listGetD_append_left {β : Type} (l l2 : List β) (p : Nat) (d : β)
    (hp : p < l.length) : (l ++ l2).getD p d = l.getD p d := by
  rw [List.getD_eq_getElem?_getD, List.getD_eq_getElem?_getD]
  simp [List.getElem?_append, hp]

theorem listGetD_append_self {β : Type} (l : List β) (c d : β) :
    (l ++ [c]).getD l.length d = c := by
  rw [List.getD_eq_getElem?_getD]
  simp

theorem getPayload_lt {α : Type} (h : V8Heap α) (p : Nat) (c : RcCell α)
    (hc : h.getPayload p = some c) : p < h.payloads.length :=
  listGetD_lt h.payloads p c hc

theorem strength_decRef {α : Type} (h : V8Heap α) (p : Nat) :
    (h.decRef p).strength p = h.strength p - 1 := by
  unfold V8Heap.decRef V8Heap.strength
  cases hc : h.getPayload p with
  | none => simp [hc]
  | some c =>
    have hp := getPayload_lt h p c hc
    by_cases hs : c.strong ≤ 1
    · simp only [hc, hs, if_true, reduceIte, V8Heap.getPayload,
        listGetD_set_self h.payloads p _ _ hp]
      omega
    · simp only [hc, hs, if_false, reduceIte, V8Heap.getPayload,
        listGetD_set_self h.payloads p _ _ hp]

theorem getPayload_decRef_ne {α : Type} (h : V8Heap α) (p q : Nat)
    (hq : q ≠ p) : (h.decRef p).getPayload q = h.getPayload q := by
  unfold V8Heap.decRef
  cases hc : h.getPayload p with
  | none => rfl
  | some c =>
    by_cases hs : c.strong ≤ 1 <;>
      simp only [hs, if_true, if_false, reduceIte, V8Heap.getPayload,
        listGetD_set_ne h.payloads p q _ _ hq]

theorem getPayload_incRef_self {α : Type} (h : V8Heap α) (p : Nat)
    (c : RcCell α) (hc : h.getPayload p = some c) :
    (h.incRef p).getPayload p = some { c with strong := c.strong + 1 } := by
  unfold V8Heap.incRef
  rw [hc]
  exact listGetD_set_self h.payloads p _ _ (getPayload_lt h p c hc)

theorem getPayload_incRef_ne {α : Type} (h : V8Heap α) (p q : Nat)
    (hq : q ≠ p) : (h.incRef p).getPayload q = h.getPayload q := by
  unfold V8Heap.incRef
  cases hc : h.getPayload p with
  | none => rfl
  | some c => exact listGetD_set_ne h.payloads p q _ _ hq

/-- Claim C2: a live wrapper put through `make_weak` and then the engine's
reclamation (the finalization callback) ends Empty: `unwrap` and `get`
both return `None`, and the payload's reference count is decremented
exactly once relative to its value immediately before reclamation — the
wrapper's single ownership share is released, no more and no less, and no
other payload is touched. -/
theorem wrapperReclaim_spec {α : Type} (w : ObjectWrapSt) (h : V8Heap α)
    (oid pid : Nat) (hh : w.handle = some oid) (hw : w.wrapping = some pid) :
    (ObjectWrap.unwrap (gcReclaim (ObjectWrap.make_weak w) h).1
        (gcReclaim (ObjectWrap.make_weak w) h).2).1 = none ∧
    ObjectWrap.get (gcReclaim (ObjectWrap.make_weak w) h).1
      (gcReclaim (ObjectWrap.make_weak w) h).2 = none ∧
    (gcReclaim (ObjectWrap.make_weak w) h).2.strength pid
      = h.strength pid - 1 ∧
    (∀ q, q ≠ pid →
      (gcReclaim (ObjectWrap.make_weak w) h).2.getPayload q
        = h.getPayload q) := by
  obtain ⟨wh, ww, wv, wk⟩ := w
  replace hh : wh = some oid := hh
  replace hw : ww = some pid := hw
  subst hh
  subst hw
  exact ⟨rfl, rfl, strength_decRef _ pid,
    fun q hq => getPayload_decRef_ne _ pid q hq⟩

/-- Witness for C2: a wrapper over payload 0 (count 2: the wrapper's share
and one outstanding clone) on object 0; after reclamation the count is 1
and `get` is absent. -/
theorem wrapperReclaim_spec_witness :
    (gcReclaim (ObjectWrap.make_weak ⟨some 0, some 0, true, false⟩)
      (⟨[some ⟨2, 42⟩], [some ⟨[8, 0]⟩]⟩ : V8Heap Nat)).2.strength 0
      = (⟨[some ⟨2, 42⟩], [some ⟨[8, 0]⟩]⟩ : V8Heap Nat).strength 0 - 1 ∧
    ObjectWrap.get
      (gcReclaim (ObjectWrap.make_weak ⟨some 0, some 0, true, false⟩)
        (⟨[some ⟨2, 42⟩], [some ⟨[8, 0]⟩]⟩ : V8Heap Nat)).1
      (gcReclaim (ObjectWrap.make_weak ⟨some 0, some 0, true, false⟩)
        (⟨[some ⟨2, 42⟩], [some ⟨[8, 0]⟩]⟩ : V8Heap Nat)).2 = none :=
  have h := wrapperReclaim_spec ⟨some 0, some 0, true, false⟩
    (⟨[some ⟨2, 42⟩], [some ⟨[8, 0]⟩]⟩ : V8Heap Nat) 0 0 rfl rfl
  ⟨h.2.2.1, h.2.1⟩

/-- Claim C8: `from_object` returns `None` when the object's internal slot
count is not two or when the tag in slot 0 differs from the requested
type's tag (leaving the heap untouched — in particular for an object
wrapped for a different, non-colliding type); on a tag match it returns
the payload pointer from slot 1 with that payload's reference count
incremented by one, every other reference — the wrapper's own share
included — left in place. -/
theorem fromObject_spec {α : Type} (typeHash : Nat) (object : JSObject)
    (h : V8Heap α) :
    (object.slots.length ≠ 2 →
      ObjectWrap.from_object typeHash object h = (none, h)) ∧
    (type_id_to_u64 typeHash ≠ object.slots.getD 0 0 →
      ObjectWrap.from_object typeHash object h = (none, h)) ∧
    (∀ pid c, object.slots.length = 2 →
      object.slots.getD 0 0 = type_id_to_u64 typeHash →
      object.slots.getD 1 0 = pid →
      h.getPayload pid = some c →
      (ObjectWrap.from_object typeHash object h).1 = some pid ∧
      (ObjectWrap.from_object typeHash object h).2.getPayload pid
        = some { c with strong := c.strong + 1 } ∧
      (∀ q, q ≠ pid →
        (ObjectWrap.from_object typeHash object h).2.getPayload q
          = h.getPayload q)) := by
  refine ⟨?_, ?_, ?_⟩
  · intro hlen
    unfold ObjectWrap.from_object
    rw [if_pos hlen]
  · intro htag
    by_cases hlen : object.slots.length ≠ 2
    · unfold ObjectWrap.from_object
      rw [if_pos hlen]
    · unfold ObjectWrap.from_object
      rw [if_neg hlen, if_pos htag]
  · intro pid c hlen htag hpid hc
    have hobj : ObjectWrap.from_object typeHash object h = (some pid, h.incRef pid) := by
      unfold ObjectWrap.from_object
      rw [if_neg (by omega : ¬object.slots.length ≠ 2),
        if_neg (fun hcon => hcon htag.symm)]
      show (some (object.slots.getD 1 0), h.incRef (object.slots.getD 1 0))
        = (some pid, h.incRef pid)
      rw [hpid]
    rw [hobj]
    exact ⟨rfl, getPayload_incRef_self h pid c hc,
      fun q hq => getPayload_incRef_ne h pid q hq⟩

/-- Witness for C8: an object wrapped for a type with tag 8, requested
with a type hashing to 10 (distinct tag), is rejected with the heap
unchanged; requested with the matching hash it returns payload 0 with its
count bumped from 1 to 2. -/
theorem fromObject_spec_witness :
    ObjectWrap.from_object 10 ⟨[8, 0]⟩ (⟨[some ⟨1, 5⟩], []⟩ : V8Heap Nat)
      = (none, (⟨[some ⟨1, 5⟩], []⟩ : V8Heap Nat)) ∧
    (ObjectWrap.from_object 8 ⟨[8, 0]⟩ (⟨[some ⟨1, 5⟩], []⟩ : V8Heap Nat)).1
      = some 0 ∧
    (ObjectWrap.from_object 8 ⟨[8, 0]⟩
      (⟨[some ⟨1, 5⟩], []⟩ : V8Heap Nat)).2.getPayload 0 = some ⟨2, 5⟩ :=
  have hm := (fromObject_spec 8 ⟨[8, 0]⟩
    (⟨[some ⟨1, 5⟩], []⟩ : V8Heap Nat)).2.2 0 ⟨1, 5⟩ rfl (by decide) rfl rfl
  ⟨(fromObject_spec 10 ⟨[8, 0]⟩ (⟨[some ⟨1, 5⟩], []⟩ : V8Heap Nat)).2.1
      (by decide),
   hm.1, hm.2.1⟩

/-- Claim C9: on a live wrapper whose object carries payload `p1`, `swap`
returns `p1` as a still-valid reference — `p1`'s cell, its count and its
value are unchanged, so references obtained before the swap still read the
original value — while the new payload is freshly allocated with one
reference, stored in the `wrapping` field and in slot 1, so a subsequent
`unwrap` yields the new payload; on a wrapper whose engine object is gone,
`swap` returns `None` and changes nothing. -/
theorem swap_spec {α : Type} :
    (∀ (w : ObjectWrapSt) (h : V8Heap α) (x : α) (oid tag p1 : Nat)
        (c1 : RcCell α),
      w.handle = some oid →
      h.objects.getD oid none = some ⟨[tag, p1]⟩ →
      h.getPayload p1 = some c1 →
      (ObjectWrap.swap w h x).1 = some p1 ∧
      (ObjectWrap.swap w h x).2.2.getPayload p1 = some c1 ∧
      (ObjectWrap.swap w h x).2.2.getPayload h.payloads.length = some ⟨1, x⟩ ∧
      (ObjectWrap.swap w h x).2.1.wrapping = some h.payloads.length ∧
      (ObjectWrap.unwrap (ObjectWrap.swap w h x).2.1
        (ObjectWrap.swap w h x).2.2).1 = some h.payloads.length) ∧
    (∀ (w : ObjectWrapSt) (h : V8Heap α) (x : α),
      ObjectWrap.get w h = none → ObjectWrap.swap w h x = (none, w, h)) := by
  constructor
  · intro w h x oid tag p1 c1 hh hobj hp1
    obtain ⟨wh, ww, wv, wk⟩ := w
    replace hh : wh = some oid := hh
    subst hh
    have hlt : p1 < h.payloads.length := getPayload_lt h p1 c1 hp1
    have holt : oid < h.objects.length := listGetD_lt h.objects oid _ hobj
    have hswap : ObjectWrap.swap (⟨some oid, ww, wv, wk⟩ : ObjectWrapSt) h x
        = (some p1, ⟨some oid, some h.payloads.length, wv, wk⟩,
           ⟨h.payloads ++ [some ⟨1, x⟩],
            h.objects.set oid (some ⟨[tag, h.payloads.length]⟩)⟩) := by
      simp only [ObjectWrap.swap]
      rw [hobj]
      rfl
    rw [hswap]
    refine ⟨rfl, ?_, ?_, rfl, ?_⟩
    · show (h.payloads ++ [some (⟨1, x⟩ : RcCell α)]).getD p1 none = some c1
      rw [listGetD_append_left h.payloads _ p1 none hlt]
      exact hp1
    · show (h.payloads ++ [some (⟨1, x⟩ : RcCell α)]).getD h.payloads.length none
        = some (⟨1, x⟩ : RcCell α)
      exact listGetD_append_self h.payloads (some (⟨1, x⟩ : RcCell α)) none
    · show (ObjectWrap.unwrap _ _).1 = some h.payloads.length
      unfold ObjectWrap.unwrap
      simp only [listGetD_set_self h.objects oid _ none holt]
      rfl
  · intro w h x hg
    obtain ⟨wh, ww, wv, wk⟩ := w
    cases wh with
    | none => rfl
    | some oid =>
      cases ho : h.objects.getD oid none with
      | none =>
        simp only [ObjectWrap.swap]
        rw [ho]
      | some obj =>
        simp only [ObjectWrap.get] at hg
        rw [ho] at hg
        simp at hg

/-- Witness for C9: swapping payload 0 (value 5) for a fresh value 9 on a
live wrapper returns payload 0 untouched and installs payload 1 with one
reference; a reclaimed wrapper's swap is a no-op. -/
theorem swap_spec_witness :
    (ObjectWrap.swap ⟨some 0, some 0, true, false⟩
      (⟨[some ⟨1, 5⟩], [some ⟨[8, 0]⟩]⟩ : V8Heap Nat) 9).1 = some 0 ∧
    (ObjectWrap.swap ⟨some 0, some 0, true, false⟩
      (⟨[some ⟨1, 5⟩], [some ⟨[8, 0]⟩]⟩ : V8Heap Nat) 9).2.2.getPayload 0
      = some ⟨1, 5⟩ ∧
    (ObjectWrap.swap ⟨some 0, some 0, true, false⟩
      (⟨[some ⟨1, 5⟩], [some ⟨[8, 0]⟩]⟩ : V8Heap Nat) 9).2.2.getPayload 1
      = some ⟨1, 9⟩ ∧
    ObjectWrap.swap ⟨none, none, false, true⟩
      (⟨[some ⟨1, 5⟩], [some ⟨[8, 0]⟩]⟩ : V8Heap Nat) 9
      = (none, ⟨none, none, false, true⟩,
         (⟨[some ⟨1, 5⟩], [some ⟨[8, 0]⟩]⟩ : V8Heap Nat)) :=
  have hl := swap_spec.1 ⟨some 0, some 0, true, false⟩
    (⟨[some ⟨1, 5⟩], [some ⟨[8, 0]⟩]⟩ : V8Heap Nat) 9 0 8 0 ⟨1, 5⟩ rfl rfl rfl
  ⟨hl.1, hl.2.1, hl.2.2.1,
   swap_spec.2 ⟨none, none, false, true⟩
     (⟨[some ⟨1, 5⟩], [some ⟨[8, 0]⟩]⟩ : V8Heap Nat) 9 rfl⟩

/-- The tag mask `!1_u64` has a zero lowest bit, so every tag is even. -/
theorem type_id_to_u64_even (t : Nat) : type_id_to_u64 t % 2 = 0 := by
  have hm : (0xFFFFFFFFFFFFFFFE : Nat).testBit 0 = false := by decide
  have hbit : (type_id_to_u64 t).testBit 0 = false := by
    unfold type_id_to_u64
    rw [Nat.testBit_and, hm, Bool.and_false]
  rw [Nat.testBit_zero] at hbit
  have := of_decide_eq_false hbit
  omega

/-- Two hash prefixes that agree above the lowest bit receive the same
tag. -/
theorem type_id_to_u64_congr (t1 t2 : Nat) (h12 : t1 / 2 = t2 / 2) :
    type_id_to_u64 t1 = type_id_to_u64 t2 := by
  unfold type_id_to_u64
  apply Nat.eq_of_testBit_eq
  intro i
  cases i with
  | zero =>
    have hm : (0xFFFFFFFFFFFFFFFE : Nat).testBit 0 = false := by decide
    rw [Nat.testBit_and, Nat.testBit_and, hm, Bool.and_false, Bool.and_false]
  | succ i =>
    rw [Nat.testBit_and, Nat.testBit_and, Nat.testBit_add_one t1 i,
      Nat.testBit_add_one t2 i, h12]

/-- Full computation of `ObjectWrap::new` on a two-slot object. -/
theorem new_eq {α : Type} (typeHash oid : Nat) (x : α) (h : V8Heap α)
    (obj : JSObject) (ho : h.objects.getD oid none = some obj)
    (hlen : obj.slots.length = 2) :
    ObjectWrap.new typeHash oid x h
      = some (⟨some oid, some h.payloads.length, true, false⟩,
        ⟨h.payloads ++ [some ⟨1, x⟩],
         h.objects.set oid
           (some ⟨(obj.slots.set 0 (type_id_to_u64 typeHash)).set 1
             h.payloads.length⟩)⟩) := by
  simp only [ObjectWrap.new]
  rw [ho]
  show (if obj.slots.length ≠ 2 then (none : Option (ObjectWrapSt × V8Heap α))
    else some (⟨some oid, some h.payloads.length, true, false⟩,
      ⟨h.payloads ++ [some ⟨1, x⟩],
       h.objects.set oid
         (some ⟨(obj.slots.set 0 (type_id_to_u64 typeHash)).set 1
           h.payloads.length⟩)⟩)) = _
  rw [if_neg (by omega)]

/-- Claim C10: the tag stamped into slot 0 by `new` is the 8-byte prefix
of the type-identity hash with the lowest bit cleared; hence every tag is
even, any two type hashes differing only in the lowest bit receive
identical tags, and `from_object` for one such type accepts an object
wrapped for the other. -/
theorem typeTag_truncation_spec :
    (∀ t : Nat, type_id_to_u64 t % 2 = 0) ∧
    (∀ t1 t2 : Nat, t1 / 2 = t2 / 2 → type_id_to_u64 t1 = type_id_to_u64 t2) ∧
    (∀ (α : Type) (typeHash oid : Nat) (x : α) (h h2 : V8Heap α)
        (w : ObjectWrapSt),
      ObjectWrap.new typeHash oid x h = some (w, h2) →
      ∃ obj, h2.objects.getD oid none = some obj ∧
        obj.slots.getD 0 0 = type_id_to_u64 typeHash) ∧
    (∀ (α : Type) (tA tB pid : Nat) (object : JSObject) (h : V8Heap α),
      tA / 2 = tB / 2 →
      object.slots = [type_id_to_u64 tA, pid] →
      (ObjectWrap.from_object tB object h).1 = some pid) := by
  refine ⟨type_id_to_u64_even, type_id_to_u64_congr, ?_, ?_⟩
  · intro α typeHash oid x h h2 w hnew
    cases ho : h.objects.getD oid none with
    | none =>
      unfold ObjectWrap.new at hnew
      rw [ho] at hnew
      exact absurd hnew (by simp)
    | some obj =>
      by_cases hlen : obj.slots.length = 2
      · rw [new_eq typeHash oid x h obj ho hlen] at hnew
        simp only [Option.some.injEq, Prod.mk.injEq] at hnew
        obtain ⟨hw, hh2⟩ := hnew
        subst hh2
        have holt : oid < h.objects.length := listGetD_lt h.objects oid _ ho
        refine ⟨⟨(obj.slots.set 0 (type_id_to_u64 typeHash)).set 1
          h.payloads.length⟩, ?_, ?_⟩
        · exact listGetD_set_self h.objects oid _ none holt
        · show ((obj.slots.set 0 (type_id_to_u64 typeHash)).set 1
            h.payloads.length).getD 0 0 = type_id_to_u64 typeHash
          rw [listGetD_set_ne _ 1 0 _ 0 (by omega)]
          exact listGetD_set_self obj.slots 0 _ 0 (by omega)
      · unfold ObjectWrap.new at hnew
        rw [ho] at hnew
        replace hnew : (if obj.slots.length ≠ 2
            then (none : Option (ObjectWrapSt × V8Heap α))
            else some (⟨some oid, some h.payloads.length, true, false⟩,
              ⟨h.payloads ++ [some ⟨1, x⟩],
               h.objects.set oid
                 (some ⟨(obj.slots.set 0 (type_id_to_u64 typeHash)).set 1
                   h.payloads.length⟩)⟩)) = some (w, h2) := hnew
        rw [if_pos hlen] at hnew
        exact absurd hnew (by simp)
  · intro α tA tB pid object h hdiv hslots
    have heq := type_id_to_u64_congr tA tB hdiv
    obtain ⟨slots⟩ := object
    replace hslots : slots = [type_id_to_u64 tA, pid] := hslots
    subst hslots
    unfold ObjectWrap.from_object
    rw [if_neg (by simp), if_neg (fun hcon => hcon heq.symm)]
    rfl

/-- Witness for C10: hashes 9 and 8 differ only in the lowest bit; the
stamped tag is 8 and even, and `from_object` with hash 9 accepts an object
wrapped with hash 8. -/
theorem typeTag_truncation_spec_witness :
    type_id_to_u64 7 % 2 = 0 ∧
    type_id_to_u64 9 = type_id_to_u64 8 ∧
    (∃ obj, (⟨[some ⟨1, 42⟩], [some ⟨[8, 0]⟩]⟩ : V8Heap Nat).objects.getD 0 none
        = some obj ∧ obj.slots.getD 0 0 = type_id_to_u64 9) ∧
    (ObjectWrap.from_object 9 ⟨[type_id_to_u64 8, 3]⟩ (⟨[], []⟩ : V8Heap Nat)).1
      = some 3 :=
  ⟨typeTag_truncation_spec.1 7,
   typeTag_truncation_spec.2.1 9 8 rfl,
   typeTag_truncation_spec.2.2.1 Nat 9 0 42 ⟨[], [some ⟨[0, 0]⟩]⟩
     ⟨[some ⟨1, 42⟩], [some ⟨[8, 0]⟩]⟩ ⟨some 0, some 0, true, false⟩ rfl,
   typeTag_truncation_spec.2.2.2 Nat 8 9 3 ⟨[type_id_to_u64 8, 3]⟩ ⟨[], []⟩
     rfl rfl⟩
